import Mathlib

/-!
Shallow embedding of the WoodGrain Cura post-processing script
(src/WoodGrain.py) and proofs about its noise-driven temperature
scheduling engine.

Modelling conventions:
- A gcode line and a layer are lists of characters (`PyStr`); the Python
  string operations used by the script (`in`, `find`, `split`, `replace`,
  `lower`) are transcribed below on `List Char`.
- Python float arithmetic is idealized as exact rational arithmetic (`ℚ`).
- Python float division raises `ZeroDivisionError` on a zero divisor, so the
  divisions the script performs on data-dependent divisors are modelled with
  `Except`; the `execute` model also returns the (in-place mutated) data list
  together with an optional error, mirroring how an exception thrown by the
  script still leaves the mutated caller-owned list observable.
- The permutation table of the Perlin noise generator is produced at runtime
  by `random.shuffle`, so the table is a parameter of the model; likewise the
  per-height noise sampler used by the two passes (in the source:
  `lambda z, perlinToNormalizedWood(z, zOffset, grainSize, spikinessPower,
  perlin)`) is passed as a function parameter `pw`.
-/

namespace WoodGrain

/-- Python strings are modelled as lists of characters. -/
abbrev PyStr := List Char

/-- Coerce a Lean string literal into the model representation. -/
def str (s : String) : PyStr := s.data

/-- Module-level constant of the source: `eol = "\n"`. -/
def eol : PyStr := str ("\n")

/-- Index of the first occurrence of `pat` in a string, as Python `find`
(returning `none` instead of `-1` when absent). -/
def findIdx (pat : PyStr) : PyStr → Option ℕ
  | [] => if pat.isPrefixOf ([] : PyStr) then some 0 else none
  | c :: t =>
      if pat.isPrefixOf (c :: t) then some 0
      else (findIdx pat t).map (fun i => i + 1)

/-- Python substring containment `pat in s`. -/
def listContainsSub (s pat : PyStr) : Bool := (findIdx pat s).isSome

/-- Python `s.split("\n")`. -/
def splitNl : PyStr → List PyStr
  | [] => [[]]
  | '\n' :: t => [] :: splitNl t
  | c :: t =>
      match splitNl t with
      | h :: r => (c :: h) :: r
      | [] => [[c]]

/-- Worker for `pyReplace`; the fuel argument (instantiated with the length of
the string, enough since every step consumes at least one character) only
serves to make the recursion structural. -/
def pyReplaceAux (pat rep : PyStr) : ℕ → PyStr → PyStr
  | 0, s => s
  | _ + 1, [] => []
  | fuel + 1, c :: t =>
      if pat ≠ [] ∧ pat.isPrefixOf (c :: t) then
        rep ++ pyReplaceAux pat rep fuel (List.drop (pat.length - 1) t)
      else c :: pyReplaceAux pat rep fuel t

/-- Python `s.replace(pat, rep)`: replace all non-overlapping occurrences,
left to right.  (All patterns the script replaces are nonempty.) -/
def pyReplace (s pat rep : PyStr) : PyStr := pyReplaceAux pat rep s.length s

/-- Worker for `countSub`, fueled like `pyReplaceAux`. -/
def countSubAux (pat : PyStr) : ℕ → PyStr → ℕ
  | 0, _ => 0
  | _ + 1, [] => 0
  | fuel + 1, c :: t =>
      if pat ≠ [] ∧ pat.isPrefixOf (c :: t) then
        1 + countSubAux pat fuel (List.drop (pat.length - 1) t)
      else countSubAux pat fuel t

/-- Number of non-overlapping occurrences of `pat` in `s` (Python
`s.count(pat)`); used only to state properties of outputs. -/
def countSub (s pat : PyStr) : ℕ := countSubAux pat s.length s

/-- Concatenation of all layers of a data list, for stating stream-wide
counting properties. -/
def joinAll (l : List PyStr) : PyStr := l.foldl (fun a b => a ++ b) []

/-- Numeric value of a list of decimal digit characters. -/
def digitsVal (ds : List Char) : ℕ := ds.foldl (fun a c => a * 10 + (c.toNat - 48)) 0

/-- The regular expression match of the source, line 118:
re.search of the pattern caret [-+]? [0-9]+ dot? [0-9]* , anchored at the
front, converted by `float(...)` (which cannot fail on such a match). -/
def parseNum (cs : PyStr) : Option ℚ :=
  let sgn : ℚ := match cs with
    | '-' :: _ => -1
    | _ => 1
  let cs1 : PyStr := match cs with
    | '-' :: t => t
    | '+' :: t => t
    | _ => cs
  let ds := cs1.takeWhile Char.isDigit
  if ds.isEmpty then none
  else
    let rest := cs1.drop ds.length
    let ip : ℚ := (digitsVal ds : ℕ)
    match rest with
    | '.' :: t =>
        let fs := t.takeWhile Char.isDigit
        some (sgn * (ip + (digitsVal fs : ℚ) / ((10 ^ fs.length : ℕ) : ℚ)))
    | _ => some (sgn * ip)

/-- `WoodGrain.getValue` (source lines 114-124): locate `key`, refuse a match
after a `;` comment start, then parse the number that follows. -/
def getValue (line : PyStr) (key : PyStr) : Option ℚ :=
  match findIdx key line with
  | none => none
  | some ki =>
      match findIdx (str (";")) line with
      | some si =>
          if ki > si then none
          else parseNum (line.drop (ki + key.length))
      | none => parseNum (line.drop (ki + key.length))

/-- `WoodGrain.getZ` (source lines 126-131): the Z field of a G0/G1 motion
command, with an explicit default. -/
def getZ (line : PyStr) (dflt : ℚ) : ℚ :=
  if getValue line (str ("G")) = some 0 ∨ getValue line (str ("G")) = some 1 then
    (getValue line (str ("Z"))).getD dflt
  else dflt

/-- Python `int(x)` on a float: truncation toward zero. -/
def pyTrunc (q : ℚ) : ℤ := if 0 ≤ q then Rat.floor q else Rat.ceil q

/-- Decimal digits of a natural number. -/
def natRepr (n : ℕ) : PyStr := (toString n).data

/-- Decimal rendering of an integer (Python percent-i formatting of the
truncated value is `intRepr (pyTrunc x)`). -/
def intRepr (n : ℤ) : PyStr := (toString n).data

/-- Left-pad with zeros to the given width. -/
def padZeros (w : ℕ) (s : PyStr) : PyStr := List.replicate (w - s.length) '0' ++ s

/-- Left-pad with spaces to the given width (Python width-3 integer field). -/
def padSpaces (w : ℕ) (s : PyStr) : PyStr := List.replicate (w - s.length) ' ' ++ s

/-- Round a rational scaled by ten to the sixth to an integer, ties to even;
models the rounding of Python percent-f float formatting. -/
def round6 (q : ℚ) : ℤ :=
  let s := q * 1000000
  let n := Rat.floor s
  if s - (n : ℚ) > (1 / 2 : ℚ) then n + 1
  else if s - (n : ℚ) < (1 / 2 : ℚ) then n
  else if n % 2 = 0 then n else n + 1

/-- Python `"%03f" % x`: six decimal places (the 0-flag width of 3 is always
exceeded by the eight-plus characters produced, so it never pads). -/
def format03f (q : ℚ) : PyStr :=
  let m := round6 q
  let a := m.natAbs
  (if m < 0 then str ("-") else []) ++ natRepr (a / 1000000) ++ str (".")
    ++ padZeros 6 (natRepr (a % 1000000))

/-- Ten to a natural power, as a rational. -/
def pow10 (k : ℕ) : ℚ := ((10 ^ k : ℕ) : ℚ)

/-- Smallest number of decimal places rendering `q` exactly, if at most 20. -/
def decScale (q : ℚ) : Option ℕ := (List.range 21).find? (fun k => (q * pow10 k).den = 1)

/-- Model of Python `str(float)` for the decimal-valued configuration numbers
the script prints into the graph header (for an integral value Python prints a
trailing `.0`; otherwise the shortest exact decimal is printed). -/
def pyFloatStr (q : ℚ) : PyStr :=
  if q.den = 1 then intRepr q.num ++ str (".0")
  else
    match decScale q with
    | some k =>
        let m := (q * pow10 k).num
        let a := m.natAbs
        (if m < 0 then str ("-") else []) ++ natRepr (a / 10 ^ k) ++ str (".")
          ++ padZeros k (natRepr (a % 10 ^ k))
    | none => str ("?")

/-! ## The Perlin noise generator (source lines 150-224)

The permutation table is produced at construction time by shuffling
`range(tiledim)` with `random.shuffle` (seeded by the configured seed when it
is nonzero); the shuffled list is therefore a parameter of the model. -/

/-- The `Perlin` class state: tile dimension and the doubled permutation
table `perm` (source lines 153-166). -/
structure Perlin where
  tiledim : ℕ
  perm : List ℕ

/-- The constructor body (source lines 159-166): the shuffled permutation is
copied twice into `perm`. -/
def Perlin.ofPermutation (tiledim : ℕ) (permutation : List ℕ) : Perlin :=
  ⟨tiledim, permutation ++ permutation⟩

/-- Table lookup `self.perm[i]`; the default 0 is never reached for a
well-formed table, whose entries are below `tiledim`. -/
def Perlin.permAt (p : Perlin) (i : ℕ) : ℕ := p.perm.getD i 0

/-- `Perlin.fade` (source line 168). -/
def Perlin.fade (t : ℚ) : ℚ := t * t * t * (t * (t * 6 - 15) + 10)

/-- `Perlin.lerp` (source line 171). -/
def Perlin.lerp (t a b : ℚ) : ℚ := a + t * (b - a)

/-- `Perlin.grad` (source lines 174-187): 12-direction gradient selection
keyed by the low four bits of the hash. -/
def Perlin.grad (hash : ℕ) (x y z : ℚ) : ℚ :=
  let h := hash &&& 15
  let u := if h < 8 then x else y
  let v := if h < 4 then y else if h = 12 ∨ h = 14 then x else z
  let first := if h &&& 1 = 0 then u else -u
  let second := if h &&& 2 = 0 then v else -v
  first + second

/-- `Perlin.noise` (source lines 189-211).  The source masks the truncated
coordinate with `int(c) & (tiledim-1)`; for the power-of-two tile dimension
this equals the Euclidean remainder modulo `tiledim`, which is how it is
written here. -/
def Perlin.noise (p : Perlin) (x y z : ℚ) : ℚ :=
  let X := (Int.emod (pyTrunc x) (p.tiledim : ℤ)).toNat
  let Y := (Int.emod (pyTrunc y) (p.tiledim : ℤ)).toNat
  let Z := (Int.emod (pyTrunc z) (p.tiledim : ℤ)).toNat
  let x := x - (pyTrunc x : ℚ)
  let y := y - (pyTrunc y : ℚ)
  let z := z - (pyTrunc z : ℚ)
  let u := Perlin.fade x
  let v := Perlin.fade y
  let w := Perlin.fade z
  let A := p.permAt X + Y
  let AA := p.permAt A + Z
  let AB := p.permAt (A + 1) + Z
  let B := p.permAt (X + 1) + Y
  let BA := p.permAt B + Z
  let BB := p.permAt (B + 1) + Z
  Perlin.lerp w
    (Perlin.lerp v
      (Perlin.lerp u (Perlin.grad (p.permAt AA) x y z)
        (Perlin.grad (p.permAt BA) (x - 1) y z))
      (Perlin.lerp u (Perlin.grad (p.permAt AB) x (y - 1) z)
        (Perlin.grad (p.permAt BB) (x - 1) (y - 1) z)))
    (Perlin.lerp v
      (Perlin.lerp u (Perlin.grad (p.permAt (AA + 1)) x y (z - 1))
        (Perlin.grad (p.permAt (BA + 1)) (x - 1) y (z - 1)))
      (Perlin.lerp u (Perlin.grad (p.permAt (AB + 1)) x (y - 1) (z - 1))
        (Perlin.grad (p.permAt (BB + 1)) (x - 1) (y - 1) (z - 1))))

/-- The octave loop of `Perlin.fractal` (source lines 218-223), returning the
accumulated value and the accumulated total amplitude. -/
def Perlin.fractalAux (p : Perlin) (persistence x y z : ℚ) :
    ℕ → ℚ → ℚ → ℚ × ℚ
  | 0, _, _ => (0, 0)
  | octaves + 1, freq, amp =>
      let n := p.noise (x * freq) (y * freq) (z * freq)
      let r := Perlin.fractalAux p persistence x y z octaves (freq * 2) (amp * persistence)
      (amp * n + r.1, amp + r.2)

/-- `Perlin.fractal` (source lines 213-224); the default argument
`frequency=1` of the source is passed explicitly by the only caller. -/
def Perlin.fractal (p : Perlin) (octaves : ℕ) (persistence x y z frequency : ℚ) : ℚ :=
  let r := Perlin.fractalAux p persistence x y z octaves frequency 1
  r.1 / r.2

/-- `WoodGrain.perlinToNormalizedWood` (source lines 138-145).  The final
`math.pow(noise, spikinessPower)` is real exponentiation on floats, which has
no computable rational counterpart, so the power function is abstracted as
the parameter `powf`; every claim below holds for an arbitrary `powf`. -/
def perlinToNormalizedWood (powf : ℚ → ℚ → ℚ) (z zOffset grainSize spikinessPower : ℚ)
    (perlin : Perlin) : ℚ :=
  let banding : ℚ := 3
  let octaves : ℕ := 2
  let persistence : ℚ := 7 / 10
  let noise := banding * perlin.fractal octaves persistence 0 0 ((z + zOffset) / (grainSize * 2)) 1
  let noise := noise - (Rat.floor noise : ℚ)
  powf noise spikinessPower

/-- `WoodGrain.noiseToTemp` (source lines 147-148). -/
def noiseToTemp (noise maxTemp minTemp : ℚ) : ℚ := minTemp + noise * (maxTemp - minTemp)

/-- The minimum meaningful height step (source line 243). -/
def minimumChangeZ : ℚ := 0.1

/-! ## Python dictionaries

`noises` is a Python dict from heights to noise values: insertion ordered,
with assignment to an existing key updating the stored value in place. -/

/-- Dict assignment `d[k] = v`. -/
def dInsert {α : Type} : List (ℚ × α) → ℚ → α → List (ℚ × α)
  | [], k, v => [(k, v)]
  | (k0, v0) :: t, k, v =>
      if k0 = k then (k0, v) :: t else (k0, v0) :: dInsert t k v

/-- Dict membership `k in d`. -/
def dMem {α : Type} (l : List (ℚ × α)) (k : ℚ) : Bool :=
  l.any (fun p => decide (p.1 = k))

/-- Dict lookup `d[k]` with an explicit default (never reached under a
`dMem` guard). -/
def dGet {α : Type} (l : List (ℚ × α)) (k : ℚ) (dflt : α) : α :=
  match l.find? (fun p => decide (p.1 = k)) with
  | some p => p.2
  | none => dflt

/-! ## Pass 1: height sampling (source lines 250-279)

The pass is parametric in the value type and in the per-height sampler `pw`,
which in the source is the closure
`z -> perlinToNormalizedWood(z, zOffset, grainSize, spikinessPower, perlin)`.
-/

/-- The loop state of the first pass. -/
structure ScanState (α : Type) where
  noises : List (ℚ × α)
  formerZ : ℚ
  thisZ : ℚ
  absolute : Bool
  deriving DecidableEq

/-- Initial state of the first pass (source lines 252-256): `noises` is
seeded with height 0, `formerZ = thisZ = -1`, and `absolute = False`. -/
def scanInit {α : Type} (pw : ℚ → α) : ScanState α :=
  { noises := [(0, pw 0)], formerZ := -1, thisZ := -1, absolute := false }

/-- The body of the inner line loop of pass 1 (source lines 262-274). -/
def scanLine {α : Type} (pw : ℚ → α) (st : ScanState α) (line : PyStr) : ScanState α :=
  let absolute := if listContainsSub line (str ("G90")) then true else st.absolute
  let absolute := if listContainsSub line (str ("G91")) then false else absolute
  if absolute then
    let thisZ := getZ line st.formerZ
    if thisZ > 2 + st.formerZ then
      { st with absolute := absolute, thisZ := thisZ, formerZ := thisZ }
    else if |thisZ - st.formerZ| > minimumChangeZ then
      { noises := dInsert st.noises thisZ (pw thisZ), formerZ := thisZ,
        thisZ := thisZ, absolute := absolute }
    else
      { st with absolute := absolute, thisZ := thisZ }
  else
    { st with absolute := absolute }

/-- One layer of pass 1: split on newlines and fold the line body. -/
def scanLayer {α : Type} (pw : ℚ → α) (st : ScanState α) (layer : PyStr) : ScanState α :=
  (splitNl layer).foldl (scanLine pw) st

/-- The whole first pass over the data list (source lines 259-274). -/
def scanPass {α : Type} (pw : ℚ → α) (data : List PyStr) : ScanState α :=
  data.foldl (scanLayer pw) (scanInit pw)

/-! ## Errors and normalization -/

/-- The Python exceptions the script can raise on the modelled paths. -/
inductive PyErr where
  | zeroDivision
  | nameError
  deriving DecidableEq, Repr

/-- First element of a nonempty fold maximizing the value, replacing only on
a strictly greater value, as Python `max(noises, key=noises.get)`. -/
def maxPairByVal (b : ℚ × ℚ) : List (ℚ × ℚ) → ℚ × ℚ
  | [] => b
  | p :: t => maxPairByVal (if p.2 > b.2 then p else b) t

/-- First element of a nonempty fold minimizing the value, as Python
`min(noises, key=noises.get)`. -/
def minPairByVal (b : ℚ × ℚ) : List (ℚ × ℚ) → ℚ × ℚ
  | [] => b
  | p :: t => minPairByVal (if p.2 < b.2 then p else b) t

/-- Normalization of the noise map (source lines 283-286): rescale every
value by the global minimum and maximum.  A degenerate all-equal map makes
the source divide by zero. -/
def normalizePass (noises : List (ℚ × ℚ)) : Except PyErr (List (ℚ × ℚ)) :=
  match noises with
  | [] => Except.error PyErr.nameError
  | h :: t =>
      let noisesMax := (maxPairByVal h t).2
      let noisesMin := (minPairByVal h t).2
      if noisesMax - noisesMin = 0 then Except.error PyErr.zeroDivision
      else
        Except.ok ((h :: t).map (fun p => (p.1, (p.2 - noisesMin) / (noisesMax - noisesMin))))

/-! ## The temperature scheduler (source lines 343-354)

The scheduler state is the pair `postponedTempDelta` / `postponedTempLast`.
`schedulerStep` is the inline block of `execute`: the carried delta is added
to the mapped temperature and reset (line 345-347, reflected in `temp0`
below, whose output delta is rebuilt from scratch); a previous emission plus
`maxUpward > 0` clamps an excessive rise and postpones the excess (lines
348-350); a result above `maxTemp` is clamped to `maxTemp` with the debt
cleared (lines 351-353); finally `postponedTempLast` is set to the emitted
value (line 354).  The sequential clamps are written as the four explicit
outcomes they produce.  Result: (emitted temp, new delta, new last). -/
def schedulerStep (minTemp maxTemp maxUpward noiseVal ppDelta : ℚ)
    (ppLast : Option ℚ) : ℚ × ℚ × Option ℚ :=
  let temp0 := noiseToTemp noiseVal maxTemp minTemp + ppDelta
  match ppLast with
  | some lastT =>
      if maxUpward > 0 ∧ temp0 > lastT + maxUpward then
        if lastT + maxUpward > maxTemp then (maxTemp, 0, some maxTemp)
        else (lastT + maxUpward, temp0 - (lastT + maxUpward), some (lastT + maxUpward))
      else
        if temp0 > maxTemp then (maxTemp, 0, some maxTemp)
        else (temp0, 0, some temp0)
  | none =>
      if temp0 > maxTemp then (maxTemp, 0, some maxTemp)
      else (temp0, 0, some temp0)

/-! ## Pass 2: the stream rewrite (source lines 289-378) -/

/-- The per-run constants of the second pass. -/
structure Pass2Config where
  minTemp : ℚ
  maxTemp : ℚ
  firstTemp : ℚ
  maxUpward : ℚ
  lastPatchZ : ℚ
  noises : List (ℚ × ℚ)

/-- The mutable loop state of the second pass.  The `injected` field is a
specification-level trace that records, at the same spot where the source
performs the `layer.replace` of line 355, the height and the scheduler
temperature of every injected temperature-set command. -/
structure Pass2State where
  thisZ : ℚ
  formerZ : ℚ
  postponedTempDelta : ℚ
  postponedTempLast : Option ℚ
  skiplines : ℕ
  warmingTempCommands : PyStr
  graphStr : PyStr
  layer : PyStr
  savelayer : Bool
  injected : List (ℚ × ℚ)
  deriving DecidableEq

/-- The bar length of a graph row (source line 361):
`int(19 * (temp-minTemp)/(maxTemp-minTemp))`; a degenerate temperature range
makes the source raise `ZeroDivisionError` here. -/
def graphT (minTemp maxTemp temp : ℚ) : Except PyErr ℤ :=
  if maxTemp - minTemp = 0 then Except.error PyErr.zeroDivision
  else Except.ok (pyTrunc (19 * (temp - minTemp) / (maxTemp - minTemp)))

/-- One graph row (source lines 362-369): the height to six decimals, the
truncated temperature in a width-3 field, then `t` hash marks and
`range(t+1, 20)` filler dots. -/
def graphRow (thisZ temp : ℚ) (t : ℤ) : PyStr :=
  str (";WoodGraph: Z ") ++ format03f thisZ ++ str (" ") ++ str ("@")
    ++ padSpaces 3 (intRepr (pyTrunc temp)) ++ str ("C | ")
    ++ List.replicate t.toNat '#' ++ List.replicate (19 - t).toNat '.'

/-- The injected temperature-set line (source line 355):
`("M104 S%i ; Wood Grain" + eol) % temp`. -/
def woodLine (temp : ℚ) : PyStr :=
  str ("M104 S") ++ intRepr (pyTrunc temp) ++ str (" ; Wood Grain") ++ eol

/-- The transition body of the second pass (source lines 340-370), entered
once a line carries a height different from `formerZ` and present in the
normalized noise map.  The bypass branch (lines 340-341) keeps the
configured start temperature for heights up to half a millimeter and does
not inject anything; the scheduler branch (lines 342-356) runs
`schedulerStep` and injects the marked command after the triggering line.
Both branches then update `formerZ` and append a graph row (lines 357-370).
-/
def handleTransition (cfg : Pass2Config) (st : Pass2State) (line : PyStr)
    (thisZ : ℚ) : Except PyErr Pass2State :=
  if cfg.firstTemp ≠ 0 ∧ thisZ ≤ (0.5 : ℚ) then
    match graphT cfg.minTemp cfg.maxTemp cfg.firstTemp with
    | Except.error e => Except.error e
    | Except.ok t =>
        Except.ok { st with
                    thisZ := thisZ, formerZ := thisZ,
                    graphStr := st.graphStr ++ graphRow thisZ cfg.firstTemp t ++ eol }
  else
    let r := schedulerStep cfg.minTemp cfg.maxTemp cfg.maxUpward
      (dGet cfg.noises thisZ 0) st.postponedTempDelta st.postponedTempLast
    match graphT cfg.minTemp cfg.maxTemp r.1 with
    | Except.error e => Except.error e
    | Except.ok t =>
        Except.ok { st with
                    thisZ := thisZ, formerZ := thisZ,
                    postponedTempDelta := r.2.1, postponedTempLast := r.2.2,
                    layer := pyReplace st.layer line (line ++ eol ++ woodLine r.1),
                    savelayer := true,
                    injected := st.injected ++ [(thisZ, r.1)],
                    graphStr := st.graphStr ++ graphRow thisZ r.1 t ++ eol }

/-- The body of the inner line loop of pass 2 (source lines 325-370). -/
def processLine (cfg : Pass2Config) (st : Pass2State) (line : PyStr) :
    Except PyErr Pass2State :=
  let low := line.map Char.toLower
  if listContainsSub low (str ("; set extruder ")) then
    Except.ok { st with
                layer := pyReplace st.layer line (line ++ eol ++ st.warmingTempCommands),
                warmingTempCommands := [], savelayer := true }
  else if st.skiplines > 0 then
    Except.ok { st with skiplines := st.skiplines - 1 }
  else if listContainsSub low (str (";woodified")) then
    Except.ok { st with skiplines := 4 }
  else if listContainsSub low (str (";woodgraph")) then
    Except.ok st
  else if st.thisZ = cfg.lastPatchZ then
    Except.ok st
  else if listContainsSub low (str ("m104")) then
    Except.ok st
  else
    let thisZ := getZ line st.formerZ
    if thisZ ≠ st.formerZ ∧ dMem cfg.noises thisZ = true then
      handleTransition cfg st line thisZ
    else
      Except.ok { st with thisZ := thisZ }

/-- The line loop over one layer; an exception surfaces the last completed
state (whatever the erroring line had half-done is lost with the raised
exception, exactly as the Python locals are). -/
def processLines (cfg : Pass2Config) : Pass2State → List PyStr → Pass2State × Option PyErr
  | st, [] => (st, none)
  | st, l :: ls =>
      match processLine cfg st l with
      | Except.ok st2 => processLines cfg st2 ls
      | Except.error e => (st, some e)

/-- The layer loop of pass 2 (source lines 319-374).  The header block is
prepended to the first layer and written back immediately (lines 320-323);
the line list is split from the already-prepended text (line 324); the layer
is written back after the loop only when `savelayer` was set (lines 372-374).
On an exception the already-written layers, the current (prepended but not
yet saved) layer and the untouched rest remain in the data list, which is
what the caller of the raising Python function observes. -/
def processLayers (cfg : Pass2Config) :
    List PyStr → Pass2State → Bool → List PyStr × Pass2State × Option PyErr
  | [], st, _ => ([], st, none)
  | layer :: rest, st, header =>
      let layer1 := if header then st.warmingTempCommands ++ layer else layer
      let st0 := { st with layer := layer1, savelayer := false }
      let r := processLines cfg st0 (splitNl layer1)
      match r.2 with
      | some e => (layer1 :: rest, r.1, some e)
      | none =>
          let entry := if r.1.savelayer then r.1.layer else layer1
          let rec2 := processLayers cfg rest r.1 false
          (entry :: rec2.1, rec2.2.1, rec2.2.2)

/-- Append a suffix to the last element of a list. -/
def appendToLast (suffix : PyStr) : List PyStr → List PyStr
  | [] => []
  | [l] => [l ++ suffix]
  | l :: ls => l :: appendToLast suffix ls

/-- Initial state of pass 2 (source lines 308-316). -/
def pass2InitState (warming graphHeader : PyStr) : Pass2State :=
  { thisZ := -1, formerZ := -1, postponedTempDelta := 0, postponedTempLast := none,
    skiplines := 0, warmingTempCommands := warming, graphStr := graphHeader,
    layer := [], savelayer := false, injected := [] }

/-- Pass 2 in full: the layer loop followed by the final append of the graph
to the last layer (source lines 376-377).  An empty data list makes the
source raise `NameError` at line 376, where the loop variables are unbound.
-/
def pass2Run (cfg : Pass2Config) (warming graphHeader : PyStr) (data : List PyStr) :
    List PyStr × Pass2State × Option PyErr :=
  let st0 := pass2InitState warming graphHeader
  match data with
  | [] => ([], st0, some PyErr.nameError)
  | _ :: _ =>
      let r := processLayers cfg data st0 true
      match r.2.2 with
      | some _ => r
      | none => (appendToLast (r.2.1.graphStr ++ eol) r.1, r.2.1, none)

/-- The warming command block (source lines 292-299): wait-for-temperature
on, the first temperature-set command, wait-for-temperature off, and the
blocking M116. -/
def warmingTempCommands (firstTemp maxTemp minTemp : ℚ) : PyStr :=
  let block := str ("M230 S0") ++ eol
  let block := block ++
    (if firstTemp = 0 then str ("M104 S") ++ intRepr (pyTrunc (noiseToTemp 0 maxTemp minTemp))
     else str ("M104 S") ++ intRepr (pyTrunc firstTemp)) ++ eol
  let block := block ++ str ("M230 S1") ++ eol
  block ++ str ("M116") ++ eol

/-- The graph header comment (source lines 302-306). -/
def graphHeader (minTemp maxTemp grainSize zOffset maxUpward : ℚ) : PyStr :=
  str (";WoodGraph: Wood temperature graph (from ") ++ pyFloatStr minTemp
    ++ str ("C to ") ++ pyFloatStr maxTemp ++ str ("C, grain size ")
    ++ pyFloatStr grainSize ++ str ("mm, z-offset ") ++ pyFloatStr zOffset
    ++ str (")")
    ++ (if maxUpward ≠ 0 then
          str (", temperature increases capped at ") ++ pyFloatStr maxUpward
        else [])
    ++ str (":") ++ eol

/-- `WoodGrain.execute` (source lines 227-378), parametric in the per-height
noise sampler `pw` (see `perlinToNormalizedWood`): pass 1, normalization,
the warming block and graph header, then pass 2.  `spikinessPower`,
`zOffset` and the random seed act only through `pw` and the permutation
table; `grainSize` and `zOffset` additionally appear as text in the graph
header.  The result is the data list as mutated in place, the final pass-2
state, and the exception the run raised, if any. -/
def executeRun (minTemp maxTemp firstTemp grainSize maxUpward zOffset : ℚ)
    (pw : ℚ → ℚ) (data : List PyStr) : List PyStr × Pass2State × Option PyErr :=
  let sc := scanPass pw data
  let warming := warmingTempCommands firstTemp maxTemp minTemp
  let gh := graphHeader minTemp maxTemp grainSize zOffset maxUpward
  match normalizePass sc.noises with
  | Except.error e => (data, pass2InitState warming gh, some e)
  | Except.ok normNoises =>
      let cfg : Pass2Config :=
        { minTemp := minTemp, maxTemp := maxTemp, firstTemp := firstTemp,
          maxUpward := maxUpward, lastPatchZ := sc.thisZ, noises := normNoises }
      pass2Run cfg warming gh data

/-! ## Auxiliary definitions for the statements -/

/-- Projection of a pass-2 step result onto its success state. -/
def okState : Except PyErr Pass2State → Option Pass2State
  | Except.ok s => some s
  | Except.error _ => none

/-- The scheduler invariant maintained across the rewrite pass: the carried
debt is nonnegative, the remembered last emission lies between the
configured temperatures, and so does every injected temperature. -/
def TempInv (cfg : Pass2Config) (st : Pass2State) : Prop :=
  0 ≤ st.postponedTempDelta ∧
  (∀ t, st.postponedTempLast = some t → cfg.minTemp ≤ t ∧ t ≤ cfg.maxTemp) ∧
  (∀ p ∈ st.injected, cfg.minTemp ≤ p.2 ∧ p.2 ≤ cfg.maxTemp)

/-- The warming command block as the specification of claim C5 words it: a
second definition, following the spec rather than the source, in which the
temperature-set command of the startup block uses the scheduled temperature
for height 0, that is, `noiseToTemp` of the normalized noise value stored
for height 0.  Compared against `warmingTempCommands` below. -/
def warmingTempCommandsSpec (firstTemp maxTemp minTemp : ℚ)
    (normNoises : List (ℚ × ℚ)) : PyStr :=
  str ("M230 S0") ++ eol ++ str ("M104 S")
    ++ intRepr (pyTrunc (if firstTemp = 0 then
        noiseToTemp (dGet normNoises 0 0) maxTemp minTemp else firstTemp))
    ++ eol ++ str ("M230 S1") ++ eol ++ str ("M116") ++ eol

/-! ## Concrete instances used by counterexamples and witnesses -/

/-- Identity noise sampler, used for concrete runs. -/
def pwId : ℚ → ℚ := fun z => z

/-- Negated noise sampler (makes height 0 carry the maximal raw noise). -/
def pwNeg : ℚ → ℚ := fun z => -z

/-- A minimal single-layer stream: absolute mode, then one height. -/
def dataC1 : List PyStr := [str ("G90\nG1 Z0.3")]

/-- First run of the engine on `dataC1`. -/
def runC1a : List PyStr × Pass2State × Option PyErr :=
  executeRun 180 230 0 3 0 0 pwId dataC1

/-- Second run of the engine on the output of the first run. -/
def runC1b : List PyStr × Pass2State × Option PyErr :=
  executeRun 180 230 0 3 0 0 pwId runC1a.1

/-- A run with a degenerate temperature range (`maxTemp = minTemp`). -/
def runC4 : List PyStr × Pass2State × Option PyErr :=
  executeRun 180 180 0 3 0 0 pwId dataC1

/-- A pass-2 configuration with a nonzero start temperature, for the bypass
counterexample. -/
def cfgB : Pass2Config :=
  { minTemp := 180, maxTemp := 230, firstTemp := 200, maxUpward := 0,
    lastPatchZ := -5, noises := [(3/10, 1/2)] }

/-- The pass-2 state at the start of the rewrite, with empty header texts. -/
def stB : Pass2State := pass2InitState [] []

/-- A pass-2 configuration with a degenerate temperature range. -/
def cfg4 : Pass2Config :=
  { minTemp := 180, maxTemp := 180, firstTemp := 0, maxUpward := 0,
    lastPatchZ := -2, noises := [(3/10, 1)] }

/-- A pass-2 configuration without start temperature, for the
relative-mode-injection run. -/
def cfgX : Pass2Config :=
  { minTemp := 180, maxTemp := 230, firstTemp := 0, maxUpward := 0,
    lastPatchZ := -2, noises := [(3/10, 1)] }

/-- A pass-2 run whose stream switches to relative mode before its Z move. -/
def runC10 : List PyStr × Pass2State × Option PyErr :=
  pass2Run cfgX [] [] [str ("G91\nG1 Z0.3")]

/-- A pass-2 configuration with an upward cap, for the bounds witness. -/
def cfgW : Pass2Config :=
  { minTemp := 180, maxTemp := 230, firstTemp := 0, maxUpward := 5,
    lastPatchZ := -2, noises := [(3/10, 24/25)] }

/-- A pass-2 run injecting one capped temperature. -/
def runC3 : List PyStr × Pass2State × Option PyErr :=
  pass2Run cfgW [] [] [str ("G1 Z0.3")]

/-- A trivial power function standing in for `math.pow` in witnesses. -/
def powfC : ℚ → ℚ → ℚ := fun a _ => a

/-- A concrete Perlin table (the identity permutation of `range(256)`). -/
def perlinC : Perlin := Perlin.ofPermutation 256 (List.range 256)

/-- A concrete pass-1 state in absolute mode. -/
def stC : ScanState ℚ :=
  { noises := [(0, 0)], formerZ := 0, thisZ := 0, absolute := true }

/-! ## Helper lemmas -/

/-- A key passing the membership test is stored with its looked-up value. -/
theorem dGet_mem {α : Type} {l : List (ℚ × α)} {k : ℚ} {d : α}
    (h : dMem l k = true) : (k, dGet l k d) ∈ l := by
  induction l with
  | nil => simp [dMem] at h
  | cons p t ih =>
      by_cases hk : p.1 = k
      · have : (k, dGet (p :: t) k d) = p := by
          cases p with
          | mk k0 v0 =>
              simp only [dGet, List.find?]
              simp at hk
              subst hk
              simp
        rw [this]
        exact List.mem_cons_self p t
      · have hm : dMem t k = true := by
          simpa [dMem, List.any_cons, hk] using h
        have : dGet (p :: t) k d = dGet t k d := by
          simp only [dGet, List.find?]
          simp [hk]
        rw [this]
        exact List.mem_cons_of_mem p (ih hm)

/-- The result of the value-maximizing fold is an element of the list. -/
theorem maxPairByVal_mem (b : ℚ × ℚ) (l : List (ℚ × ℚ)) :
    maxPairByVal b l ∈ b :: l := by
  induction l generalizing b with
  | nil => simp [maxPairByVal]
  | cons p t ih =>
      simp only [maxPairByVal]
      rcases List.mem_cons.mp (ih (if p.2 > b.2 then p else b)) with h | h
      · rw [h]
        split_ifs <;> simp
      · simp [List.mem_cons.mpr (Or.inr (List.mem_cons.mpr (Or.inr h)))]

/-- The result of the value-maximizing fold dominates every value. -/
theorem maxPairByVal_ge (b : ℚ × ℚ) (l : List (ℚ × ℚ)) :
    ∀ p ∈ b :: l, p.2 ≤ (maxPairByVal b l).2 := by
  induction l generalizing b with
  | nil =>
      intro p hp
      rcases List.mem_cons.mp hp with h | h
      · rw [h]; simp [maxPairByVal]
      · simp at h
  | cons q t ih =>
      intro p hp
      simp only [maxPairByVal]
      have hb : b.2 ≤ (if q.2 > b.2 then q else b).2 := by
        split_ifs with h
        · exact le_of_lt h
        · exact le_refl _
      have hq : q.2 ≤ (if q.2 > b.2 then q else b).2 := by
        split_ifs with h
        · exact le_refl _
        · exact le_of_not_lt h
      rcases List.mem_cons.mp hp with h | h
      · rw [h]
        exact le_trans hb (ih _ _ (List.mem_cons_self _ _))
      · rcases List.mem_cons.mp h with h2 | h2
        · rw [h2]
          exact le_trans hq (ih _ _ (List.mem_cons_self _ _))
        · exact ih _ p (List.mem_cons_of_mem _ h2)

/-- The result of the value-minimizing fold is an element of the list. -/
theorem minPairByVal_mem (b : ℚ × ℚ) (l : List (ℚ × ℚ)) :
    minPairByVal b l ∈ b :: l := by
  induction l generalizing b with
  | nil => simp [minPairByVal]
  | cons p t ih =>
      simp only [minPairByVal]
      rcases List.mem_cons.mp (ih (if p.2 < b.2 then p else b)) with h | h
      · rw [h]
        split_ifs <;> simp
      · simp [List.mem_cons.mpr (Or.inr (List.mem_cons.mpr (Or.inr h)))]

/-- The result of the value-minimizing fold is below every value. -/
theorem minPairByVal_le (b : ℚ × ℚ) (l : List (ℚ × ℚ)) :
    ∀ p ∈ b :: l, (minPairByVal b l).2 ≤ p.2 := by
  induction l generalizing b with
  | nil =>
      intro p hp
      rcases List.mem_cons.mp hp with h | h
      · rw [h]; simp [minPairByVal]
      · simp at h
  | cons q t ih =>
      intro p hp
      simp only [minPairByVal]
      have hb : (if q.2 < b.2 then q else b).2 ≤ b.2 := by
        split_ifs with h
        · exact le_of_lt h
        · exact le_refl _
      have hq : (if q.2 < b.2 then q else b).2 ≤ q.2 := by
        split_ifs with h
        · exact le_refl _
        · exact le_of_not_lt h
      rcases List.mem_cons.mp hp with h | h
      · rw [h]
        exact le_trans (ih _ _ (List.mem_cons_self _ _)) hb
      · rcases List.mem_cons.mp h with h2 | h2
        · rw [h2]
          exact le_trans (ih _ _ (List.mem_cons_self _ _)) hq
        · exact ih _ p (List.mem_cons_of_mem _ h2)

/-- The scheduler step preserves the temperature bounds: given a normalized
noise value, a nonnegative carried debt and a bounded previous emission, the
emitted temperature lies between the configured temperatures, the new debt
is nonnegative, and the remembered emission is bounded as well. -/
theorem schedulerStep_bounds {minT maxT maxUp n pp : ℚ} {ppLast : Option ℚ}
    (hmm : minT ≤ maxT) (hn0 : 0 ≤ n) (hn1 : n ≤ 1) (hpp : 0 ≤ pp)
    (hlast : ∀ t, ppLast = some t → minT ≤ t ∧ t ≤ maxT) :
    (minT ≤ (schedulerStep minT maxT maxUp n pp ppLast).1 ∧
      (schedulerStep minT maxT maxUp n pp ppLast).1 ≤ maxT) ∧
    0 ≤ (schedulerStep minT maxT maxUp n pp ppLast).2.1 ∧
    (∀ t, (schedulerStep minT maxT maxUp n pp ppLast).2.2 = some t →
      minT ≤ t ∧ t ≤ maxT) := by
  have hbase : minT ≤ noiseToTemp n maxT minT + pp := by
    unfold noiseToTemp
    nlinarith
  cases ppLast with
  | none =>
      simp only [schedulerStep]
      split_ifs with h1 <;> dsimp only
      · exact ⟨⟨hmm, le_refl _⟩, le_refl _, by
          intro t ht
          simp at ht
          rw [← ht]
          exact ⟨hmm, le_refl _⟩⟩
      · refine ⟨⟨hbase, le_of_not_lt h1⟩, le_refl _, ?_⟩
        intro t ht
        simp at ht
        rw [← ht]
        exact ⟨hbase, le_of_not_lt h1⟩
  | some lastT =>
      have hl := hlast lastT rfl
      simp only [schedulerStep]
      split_ifs with h1 h2 h3 <;> dsimp only
      · exact ⟨⟨hmm, le_refl _⟩, le_refl _, by
          intro t ht
          simp at ht
          rw [← ht]
          exact ⟨hmm, le_refl _⟩⟩
      · have hlow : minT ≤ lastT + maxUp := by
          have := hl.1
          linarith [h1.1]
        refine ⟨⟨hlow, le_of_not_lt h2⟩, by linarith [h1.2], ?_⟩
        intro t ht
        simp at ht
        rw [← ht]
        exact ⟨hlow, le_of_not_lt h2⟩
      · exact ⟨⟨hmm, le_refl _⟩, le_refl _, by
          intro t ht
          simp at ht
          rw [← ht]
          exact ⟨hmm, le_refl _⟩⟩
      · refine ⟨⟨hbase, le_of_not_lt h3⟩, le_refl _, ?_⟩
        intro t ht
        simp at ht
        rw [← ht]
        exact ⟨hbase, le_of_not_lt h3⟩

/-- The transition body preserves the scheduler invariant. -/
theorem handleTransition_inv {cfg : Pass2Config} {st : Pass2State}
    {line : PyStr} {z : ℚ} {st2 : Pass2State}
    (hmm : cfg.minTemp ≤ cfg.maxTemp)
    (hdm : dMem cfg.noises z = true)
    (hn : ∀ p ∈ cfg.noises, 0 ≤ p.2 ∧ p.2 ≤ 1)
    (h : TempInv cfg st)
    (hr : handleTransition cfg st line z = Except.ok st2) : TempInv cfg st2 := by
  simp only [handleTransition] at hr
  split at hr
  · split at hr
    · exact absurd hr (by simp)
    · injection hr with h2
      subst h2
      exact ⟨h.1, h.2.1, h.2.2⟩
  · split at hr
    · exact absurd hr (by simp)
    · injection hr with h2
      subst h2
      have hnv : 0 ≤ dGet cfg.noises z 0 ∧ dGet cfg.noises z 0 ≤ 1 :=
        hn _ (@dGet_mem ℚ cfg.noises z 0 hdm)
      have hb := @schedulerStep_bounds cfg.minTemp cfg.maxTemp cfg.maxUpward
        (dGet cfg.noises z 0) st.postponedTempDelta st.postponedTempLast
        hmm hnv.1 hnv.2 h.1 h.2.1
      refine ⟨hb.2.1, hb.2.2, ?_⟩
      intro p hp
      rcases List.mem_append.mp hp with hp | hp
      · exact h.2.2 p hp
      · have : p = (z, (schedulerStep cfg.minTemp cfg.maxTemp cfg.maxUpward
            (dGet cfg.noises z 0) st.postponedTempDelta st.postponedTempLast).1) := by
          simpa using hp
        rw [this]
        exact hb.1

/-- The line body preserves the scheduler invariant. -/
theorem processLine_inv {cfg : Pass2Config} {st : Pass2State} {line : PyStr}
    {st2 : Pass2State}
    (hmm : cfg.minTemp ≤ cfg.maxTemp)
    (hn : ∀ p ∈ cfg.noises, 0 ≤ p.2 ∧ p.2 ≤ 1)
    (h : TempInv cfg st)
    (hr : processLine cfg st line = Except.ok st2) : TempInv cfg st2 := by
  simp only [processLine] at hr
  split at hr
  · injection hr with h2
    subst h2
    exact ⟨h.1, h.2.1, h.2.2⟩
  · split at hr
    · injection hr with h2
      subst h2
      exact ⟨h.1, h.2.1, h.2.2⟩
    · split at hr
      · injection hr with h2
        subst h2
        exact ⟨h.1, h.2.1, h.2.2⟩
      · split at hr
        · injection hr with h2
          subst h2
          exact h
        · split at hr
          · injection hr with h2
            subst h2
            exact h
          · split at hr
            · injection hr with h2
              subst h2
              exact h
            · split at hr
              · rename_i hg
                exact handleTransition_inv hmm hg.2 hn h hr
              · injection hr with h2
                subst h2
                exact ⟨h.1, h.2.1, h.2.2⟩

/-- The line loop preserves the scheduler invariant, also on the state
surfaced by an exception. -/
theorem processLines_inv {cfg : Pass2Config}
    (hmm : cfg.minTemp ≤ cfg.maxTemp)
    (hn : ∀ p ∈ cfg.noises, 0 ≤ p.2 ∧ p.2 ≤ 1) :
    ∀ (ls : List PyStr) (st : Pass2State), TempInv cfg st →
      TempInv cfg (processLines cfg st ls).1 := by
  intro ls
  induction ls with
  | nil =>
      intro st h
      simpa [processLines] using h
  | cons l t ih =>
      intro st h
      cases hpl : processLine cfg st l with
      | ok st2 =>
          simpa [processLines, hpl] using ih st2 (processLine_inv hmm hn h hpl)
      | error e =>
          simpa [processLines, hpl] using h

/-- The layer loop preserves the scheduler invariant. -/
theorem processLayers_inv {cfg : Pass2Config}
    (hmm : cfg.minTemp ≤ cfg.maxTemp)
    (hn : ∀ p ∈ cfg.noises, 0 ≤ p.2 ∧ p.2 ≤ 1) :
    ∀ (data : List PyStr) (st : Pass2State) (header : Bool), TempInv cfg st →
      TempInv cfg (processLayers cfg data st header).2.1 := by
  intro data
  induction data with
  | nil =>
      intro st header h
      simpa [processLayers] using h
  | cons layer rest ih =>
      intro st header h
      simp only [processLayers]
      have h0 : TempInv cfg
          { st with layer := if header then st.warmingTempCommands ++ layer else layer,
                    savelayer := false } :=
        ⟨h.1, h.2.1, h.2.2⟩
      have h1 := processLines_inv hmm hn
        (splitNl (if header then st.warmingTempCommands ++ layer else layer))
        _ h0
      split
      · exact h1
      · exact ih _ false h1

/-! ## The claims -/

set_option maxRecDepth 40000 in
/-- Claim C1: the rewrite pass is claimed idempotent, with every injected
line carrying a sentinel tag that the re-run strip logic recognizes.  On the
code this fails: the injected lines are tagged with the trailing comment
Wood Grain (source line 355), while the strip logic of the re-run looks for
the sentinel woodified (source lines 332-333), which no line of the engine
ever emits, and old WoodGraph rows are only skipped, never removed (line
334).  Evaluating the engine twice on a concrete stream: the first run
injects one tagged temperature command and one graph block (two WoodGraph
rows), the second run keeps the stale ones and injects fresh ones, yielding
two tagged commands and four WoodGraph rows — and no woodified sentinel ever
appears in the first output for the strip logic to find. -/
theorem claim_C1 :
    runC1a.2.2 = none ∧
    countSub (joinAll runC1a.1) (str ("; Wood Grain")) = 1 ∧
    countSub (joinAll runC1a.1) (str (";WoodGraph")) = 2 ∧
    countSub (joinAll runC1a.1) (str (";woodified")) = 0 ∧
    runC1b.2.2 = none ∧
    countSub (joinAll runC1b.1) (str ("; Wood Grain")) = 2 ∧
    countSub (joinAll runC1b.1) (str (";WoodGraph")) = 4 := by
  with_unfolding_all decide

/-- Claim C2: the scheduler adds the previously postponed delta to the
mapped temperature and rebuilds the debt from zero; with a previous emission,
a positive cap and an excessive rise, it clamps to the previous emission plus
the cap and postpones the excess; a result above the maximum temperature is
clamped there with the debt cleared; the emitted value becomes the new last
emission; and the debt is never negative. -/
theorem claim_C2 (minT maxT maxUp n pp : ℚ) (ppLast : Option ℚ) :
    0 ≤ (schedulerStep minT maxT maxUp n pp ppLast).2.1 ∧
    (schedulerStep minT maxT maxUp n pp ppLast).2.2 =
      some (schedulerStep minT maxT maxUp n pp ppLast).1 ∧
    (∀ lastT, ppLast = some lastT → maxUp > 0 →
      noiseToTemp n maxT minT + pp > lastT + maxUp →
      ((¬ lastT + maxUp > maxT →
        (schedulerStep minT maxT maxUp n pp ppLast).1 = lastT + maxUp ∧
        (schedulerStep minT maxT maxUp n pp ppLast).2.1 =
          noiseToTemp n maxT minT + pp - (lastT + maxUp)) ∧
      (lastT + maxUp > maxT →
        (schedulerStep minT maxT maxUp n pp ppLast).1 = maxT ∧
        (schedulerStep minT maxT maxUp n pp ppLast).2.1 = 0))) ∧
    ((ppLast = none ∨ ¬ maxUp > 0 ∨
        (∀ lastT, ppLast = some lastT → ¬ noiseToTemp n maxT minT + pp > lastT + maxUp)) →
      ((noiseToTemp n maxT minT + pp > maxT →
        (schedulerStep minT maxT maxUp n pp ppLast).1 = maxT ∧
        (schedulerStep minT maxT maxUp n pp ppLast).2.1 = 0) ∧
      (¬ noiseToTemp n maxT minT + pp > maxT →
        (schedulerStep minT maxT maxUp n pp ppLast).1 = noiseToTemp n maxT minT + pp ∧
        (schedulerStep minT maxT maxUp n pp ppLast).2.1 = 0))) := by
  cases ppLast with
  | none =>
      simp only [schedulerStep]
      split_ifs with h1 <;> dsimp only
      · refine ⟨le_refl _, rfl, by simp, ?_⟩
        intro _
        exact ⟨fun _ => ⟨rfl, rfl⟩, fun hc => absurd h1 hc⟩
      · refine ⟨le_refl _, rfl, by simp, ?_⟩
        intro _
        exact ⟨fun hc => absurd hc h1, fun _ => ⟨rfl, rfl⟩⟩
  | some lastT =>
      simp only [schedulerStep]
      split_ifs with h1 h2 h3 <;> dsimp only
      · refine ⟨le_refl _, rfl, ?_, ?_⟩
        · intro lt hlt hup hgt
          injection hlt with hlt
          subst hlt
          exact ⟨fun hc => absurd h2 hc, fun _ => ⟨rfl, rfl⟩⟩
        · rintro (hc | hc | hc)
          · exact absurd hc (by simp)
          · exact absurd h1.1 hc
          · exact absurd h1.2 (hc lastT rfl)
      · refine ⟨by linarith [h1.2], rfl, ?_, ?_⟩
        · intro lt hlt hup hgt
          injection hlt with hlt
          subst hlt
          exact ⟨fun _ => ⟨rfl, rfl⟩, fun hc => absurd hc h2⟩
        · rintro (hc | hc | hc)
          · exact absurd hc (by simp)
          · exact absurd h1.1 hc
          · exact absurd h1.2 (hc lastT rfl)
      · refine ⟨le_refl _, rfl, ?_, ?_⟩
        · intro lt hlt hup hgt
          injection hlt with hlt
          subst hlt
          exact absurd ⟨hup, hgt⟩ h1
        · intro _
          exact ⟨fun _ => ⟨rfl, rfl⟩, fun hc => absurd h3 hc⟩
      · refine ⟨le_refl _, rfl, ?_, ?_⟩
        · intro lt hlt hup hgt
          injection hlt with hlt
          subst hlt
          exact absurd ⟨hup, hgt⟩ h1
        · intro _
          exact ⟨fun hc => absurd hc h3, fun _ => ⟨rfl, rfl⟩⟩

/-- Claim C2, witness: with temperatures 180 to 230, a cap of 5, a previous
emission of 190 and a mapped temperature of 228, the scheduler emits 195 and
postpones 33. -/
theorem claim_C2_witness :
    (schedulerStep 180 230 5 (24/25) 0 (some 190)).1 = 195 ∧
    (schedulerStep 180 230 5 (24/25) 0 (some 190)).2.1 = 33 := by
  have h := ((claim_C2 180 230 5 (24/25) 0 (some 190)).2.2.1 190 rfl (by norm_num)
    (by unfold noiseToTemp; norm_num)).1 (by norm_num)
  constructor
  · rw [h.1]; norm_num
  · rw [h.2]; unfold noiseToTemp; norm_num

/-- Claim C3: every temperature injected by the scheduler path of the
rewrite pass lies between the configured minimum and maximum temperature,
provided the configuration is nondegenerate and every normalized noise value
lies in the unit interval.  The start-temperature bypass injects nothing, so
it is not part of the trace. -/
theorem claim_C3 (cfg : Pass2Config) (warming gh : PyStr) (data : List PyStr)
    (hmm : cfg.minTemp ≤ cfg.maxTemp)
    (hn : ∀ p ∈ cfg.noises, 0 ≤ p.2 ∧ p.2 ≤ 1) :
    ∀ p ∈ (pass2Run cfg warming gh data).2.1.injected,
      cfg.minTemp ≤ p.2 ∧ p.2 ≤ cfg.maxTemp := by
  have h0 : TempInv cfg (pass2InitState warming gh) := by
    refine ⟨le_refl 0, ?_, ?_⟩
    · intro t ht
      exact absurd ht (by simp [pass2InitState])
    · intro p hp
      exact absurd hp (by simp [pass2InitState])
  unfold pass2Run
  cases data with
  | nil =>
      intro p hp
      exact absurd hp (by simp [pass2InitState])
  | cons l ls =>
      have hinv := processLayers_inv hmm hn (l :: ls) (pass2InitState warming gh) true h0
      intro p hp
      dsimp only at hp
      split at hp
      · exact hinv.2.2 p hp
      · exact hinv.2.2 p hp

/-- Claim C3, witness: the capped run `runC3` injects the single record of
temperature 228 at height three tenths, which lies within 180 and 230. -/
theorem claim_C3_witness :
    (180 : ℚ) ≤ (3/10, (228 : ℚ)).2 ∧ (3/10, (228 : ℚ)).2 ≤ 230 :=
  claim_C3 cfgW [] [] [str ("G1 Z0.3")] (by with_unfolding_all decide)
    (by intro p hp; simp [cfgW] at hp; rw [hp]; norm_num)
    (3/10, 228) (by with_unfolding_all decide)

/-- Claim C4, counterexample: with `maxTemp = minTemp = 180` on a stream
with one height transition, the transform raises a division-by-zero error
mid-pass, yet the surfaced data differs from the input: the startup block
had already been prepended to the first layer before the abort, so the
claimed abort-before-mutation and all-or-nothing behavior both fail. -/
theorem claim_C4_cex :
    runC4.2.2 = some PyErr.zeroDivision ∧ runC4.1 ≠ dataC1 := by
  with_unfolding_all decide

/-- Claim C4, amended: the script performs no configuration validation.
With `maxTemp = minTemp`, every transition the rewrite pass reaches raises a
division-by-zero error at the graph-row computation, aborting mid-pass; the
mutations already applied are surfaced, as the concrete run shows: the
returned first layer is the input with the startup block prepended, and the
run ends with the error. -/
theorem claim_C4 :
    (∀ (cfg : Pass2Config) (st : Pass2State) (line : PyStr),
      cfg.maxTemp = cfg.minTemp →
      listContainsSub (line.map Char.toLower) (str ("; set extruder ")) = false →
      st.skiplines = 0 →
      listContainsSub (line.map Char.toLower) (str (";woodified")) = false →
      listContainsSub (line.map Char.toLower) (str (";woodgraph")) = false →
      st.thisZ ≠ cfg.lastPatchZ →
      listContainsSub (line.map Char.toLower) (str ("m104")) = false →
      getZ line st.formerZ ≠ st.formerZ →
      dMem cfg.noises (getZ line st.formerZ) = true →
      processLine cfg st line = Except.error PyErr.zeroDivision) ∧
    runC4.2.2 = some PyErr.zeroDivision ∧
    runC4.1 = [warmingTempCommands 0 180 180 ++ str ("G90\nG1 Z0.3")] := by
  refine ⟨?_, by with_unfolding_all decide, by with_unfolding_all decide⟩
  intro cfg st line hdeg hex hsk hwf hwg hlp hm hz hdm
  have hsk0 : ¬ st.skiplines > 0 := by omega
  have hzero : cfg.maxTemp - cfg.minTemp = 0 := by rw [hdeg]; ring
  simp only [processLine, hex, hsk0, hwf, hwg, hm, Bool.false_eq_true, if_false,
    if_neg hlp, if_pos (And.intro hz hdm)]
  simp only [handleTransition, graphT, hzero, if_pos rfl]
  split
  · rfl
  · rfl

/-- Claim C5, counterexample: on a stream whose raw noise makes height 0
carry the maximal sample, the normalized noise map sends height 0 to 1, so
the scheduled temperature for height 0 would be the maximum temperature 230;
the startup block built by the source nevertheless carries the command
M104 S180, because line 294 passes the literal noise value 0 (not the
normalized value of height 0) to `noiseToTemp`.  The spec-worded block
differs from the block the code builds. -/
theorem claim_C5_cex :
    (normalizePass (scanPass pwNeg dataC1).noises).toOption =
      some [(0, 1), (3/10, 0)] ∧
    warmingTempCommands 0 230 180 ≠
      warmingTempCommandsSpec 0 230 180 [(0, 1), (3/10, 0)] := by
  with_unfolding_all decide

/-- Claim C5, amended: the startup block is the wait-for-temperature-on
command, then a temperature-set command whose value is the configured start
temperature when it is nonzero and otherwise `noiseToTemp` applied to the
literal noise value 0 — which is always the minimum temperature, not the
scheduled temperature of height 0 — then the wait-for-temperature-off
command, then the blocking wait command. -/
theorem claim_C5 (firstTemp maxTemp minTemp : ℚ) :
    warmingTempCommands firstTemp maxTemp minTemp =
      str ("M230 S0") ++ eol ++ str ("M104 S")
        ++ intRepr (pyTrunc (if firstTemp = 0 then noiseToTemp 0 maxTemp minTemp
            else firstTemp))
        ++ eol ++ str ("M230 S1") ++ eol ++ str ("M116") ++ eol ∧
    noiseToTemp 0 maxTemp minTemp = minTemp ∧
    splitNl (warmingTempCommands 0 230 180) =
      [str ("M230 S0"), str ("M104 S180"), str ("M230 S1"), str ("M116"), []] := by
  refine ⟨?_, by unfold noiseToTemp; ring, by with_unfolding_all decide⟩
  by_cases h : firstTemp = 0 <;>
    simp [warmingTempCommands, h, List.append_assoc]

/-- Claim C6, counterexample: a bypass transition (nonzero start
temperature 200, height three tenths which is at most half a millimeter)
returns successfully but leaves `postponedTempLast` equal to `none`: the
scheduler bookkeeping claimed to be updated is not updated. -/
theorem claim_C6_cex :
    (okState (processLine cfgB stB (str ("G1 Z0.3")))).map
        (fun s => s.postponedTempLast) = some none ∧
    ¬ (okState (processLine cfgB stB (str ("G1 Z0.3")))).map
        (fun s => s.postponedTempLast) = some (some 200) := by
  with_unfolding_all decide

/-- Claim C6, amended: on a bypass transition (nonzero start temperature,
height at most half a millimeter) the start temperature is used unmodified
— the scheduler mapping and clamping are bypassed and nothing is injected —
and the only bookkeeping updated is the height pair `thisZ`/`formerZ` plus
the graph row built from the start temperature; `postponedTempLast` and
`postponedTempDelta` are left untouched, so later transitions clamp against
the state from before the bypass, not against the start temperature. -/
theorem claim_C6 (cfg : Pass2Config) (st : Pass2State) (line : PyStr)
    (hex : listContainsSub (line.map Char.toLower) (str ("; set extruder ")) = false)
    (hsk : st.skiplines = 0)
    (hwf : listContainsSub (line.map Char.toLower) (str (";woodified")) = false)
    (hwg : listContainsSub (line.map Char.toLower) (str (";woodgraph")) = false)
    (hlp : st.thisZ ≠ cfg.lastPatchZ)
    (hm : listContainsSub (line.map Char.toLower) (str ("m104")) = false)
    (hz : getZ line st.formerZ ≠ st.formerZ)
    (hdm : dMem cfg.noises (getZ line st.formerZ) = true)
    (hft : cfg.firstTemp ≠ 0)
    (hhalf : getZ line st.formerZ ≤ (0.5 : ℚ))
    (hdeg : cfg.maxTemp - cfg.minTemp ≠ 0) :
    processLine cfg st line = Except.ok { st with
      thisZ := getZ line st.formerZ,
      formerZ := getZ line st.formerZ,
      graphStr := st.graphStr ++ graphRow (getZ line st.formerZ) cfg.firstTemp
        (pyTrunc (19 * (cfg.firstTemp - cfg.minTemp) / (cfg.maxTemp - cfg.minTemp)))
        ++ eol } := by
  have hsk0 : ¬ st.skiplines > 0 := by omega
  simp only [processLine, hex, hsk0, hwf, hwg, hm, Bool.false_eq_true, if_false,
    if_neg hlp, if_pos (And.intro hz hdm)]
  simp only [handleTransition, if_pos (And.intro hft hhalf), graphT, if_neg hdeg]

/-- Claim C6, witness: the amended bypass behavior applied to the concrete
configuration `cfgB`, the initial state and the line `G1 Z0.3`. -/
theorem claim_C6_witness :
    processLine cfgB stB (str ("G1 Z0.3")) = Except.ok { stB with
      thisZ := getZ (str ("G1 Z0.3")) stB.formerZ,
      formerZ := getZ (str ("G1 Z0.3")) stB.formerZ,
      graphStr := stB.graphStr ++ graphRow (getZ (str ("G1 Z0.3")) stB.formerZ)
        cfgB.firstTemp
        (pyTrunc (19 * (cfgB.firstTemp - cfgB.minTemp) / (cfgB.maxTemp - cfgB.minTemp)))
        ++ eol } :=
  claim_C6 cfgB stB (str ("G1 Z0.3"))
    (by with_unfolding_all decide) (by with_unfolding_all decide)
    (by with_unfolding_all decide) (by with_unfolding_all decide)
    (by with_unfolding_all decide) (by with_unfolding_all decide)
    (by with_unfolding_all decide) (by with_unfolding_all decide)
    (by with_unfolding_all decide) (by with_unfolding_all decide)
    (by with_unfolding_all decide)

/-- Claim C4, witness: the amended abort behavior at a concrete degenerate
configuration, state and line. -/
theorem claim_C4_witness :
    processLine cfg4 stB (str ("G1 Z0.3")) = Except.error PyErr.zeroDivision :=
  claim_C4.1 cfg4 stB (str ("G1 Z0.3")) rfl
    (by with_unfolding_all decide) (by with_unfolding_all decide)
    (by with_unfolding_all decide) (by with_unfolding_all decide)
    (by with_unfolding_all decide) (by with_unfolding_all decide)
    (by with_unfolding_all decide) (by with_unfolding_all decide)

/-- In absolute mode (the mode after the toggles of the current line is
true), the pass-1 line body reduces to the three-way height policy. -/
theorem scanLine_absolute {α : Type} (pw : ℚ → α) (st : ScanState α) (line : PyStr)
    (hG91 : listContainsSub line (str ("G91")) = false)
    (hmode : st.absolute = true ∨ listContainsSub line (str ("G90")) = true) :
    scanLine pw st line =
      (if getZ line st.formerZ > 2 + st.formerZ then
        { st with absolute := true, thisZ := getZ line st.formerZ,
                  formerZ := getZ line st.formerZ }
      else if |getZ line st.formerZ - st.formerZ| > minimumChangeZ then
        { noises := dInsert st.noises (getZ line st.formerZ) (pw (getZ line st.formerZ)),
          formerZ := getZ line st.formerZ, thisZ := getZ line st.formerZ,
          absolute := true }
      else { st with absolute := true, thisZ := getZ line st.formerZ }) := by
  rcases hmode with hmode | hmode
  · cases hG90 : listContainsSub line (str ("G90"))
    · simp [scanLine, hG90, hG91, hmode]
    · simp [scanLine, hG90, hG91]
  · simp [scanLine, hmode, hG91]

/-- Claim C7: the height-transition policy of the first pass. For a line
scanned in absolute mode with the sampler the source uses (the
`perlinToNormalizedWood` closure over the configured offset, grain size,
spikiness power and Perlin table): a height beyond the discontinuity
threshold `formerZ + 2` updates `formerZ` without recording a sample; an
absolute difference above the minimum step records the
`perlinToNormalizedWood` sample for the new height and updates `formerZ`;
and a difference of at most the minimum step records nothing and leaves
`formerZ` unchanged. -/
theorem claim_C7 {pw : ℚ → ℚ} (powf : ℚ → ℚ → ℚ)
    (zOffset grainSize spikinessPower : ℚ) (perlin : Perlin)
    (hpw : pw = fun z => perlinToNormalizedWood powf z zOffset grainSize spikinessPower perlin)
    (st : ScanState ℚ) (line : PyStr)
    (hG91 : listContainsSub line (str ("G91")) = false)
    (hmode : st.absolute = true ∨ listContainsSub line (str ("G90")) = true) :
    (getZ line st.formerZ > 2 + st.formerZ →
      (scanLine pw st line).noises = st.noises ∧
      (scanLine pw st line).formerZ = getZ line st.formerZ) ∧
    (¬ getZ line st.formerZ > 2 + st.formerZ →
      |getZ line st.formerZ - st.formerZ| > minimumChangeZ →
      (scanLine pw st line).noises = dInsert st.noises (getZ line st.formerZ)
        (perlinToNormalizedWood powf (getZ line st.formerZ) zOffset grainSize
          spikinessPower perlin) ∧
      (scanLine pw st line).formerZ = getZ line st.formerZ) ∧
    (¬ getZ line st.formerZ > 2 + st.formerZ →
      ¬ |getZ line st.formerZ - st.formerZ| > minimumChangeZ →
      (scanLine pw st line).noises = st.noises ∧
      (scanLine pw st line).formerZ = st.formerZ) := by
  subst hpw
  rw [scanLine_absolute _ _ _ hG91 hmode]
  refine ⟨?_, ?_, ?_⟩
  · intro h1
    rw [if_pos h1]
    exact ⟨rfl, rfl⟩
  · intro h1 h2
    rw [if_neg h1, if_pos h2]
    exact ⟨rfl, rfl⟩
  · intro h1 h2
    rw [if_neg h1, if_neg h2]
    exact ⟨rfl, rfl⟩

/-- Claim C7, witness: from a state at height 0 in absolute mode, the line
`G1 Z0.3` records the `perlinToNormalizedWood` sample for height three
tenths and updates `formerZ`. -/
theorem claim_C7_witness :
    (scanLine (fun z => perlinToNormalizedWood powfC z 0 3 1 perlinC) stC
        (str ("G1 Z0.3"))).noises
      = dInsert stC.noises (getZ (str ("G1 Z0.3")) stC.formerZ)
          (perlinToNormalizedWood powfC (getZ (str ("G1 Z0.3")) stC.formerZ) 0 3 1 perlinC) ∧
    (scanLine (fun z => perlinToNormalizedWood powfC z 0 3 1 perlinC) stC
        (str ("G1 Z0.3"))).formerZ = getZ (str ("G1 Z0.3")) stC.formerZ :=
  (claim_C7 powfC 0 3 1 perlinC rfl stC (str ("G1 Z0.3"))
    (by with_unfolding_all decide) (Or.inl rfl)).2.1
    (by with_unfolding_all decide) (by with_unfolding_all decide)

/-- Claim C8: when the maximum noise value strictly exceeds the minimum,
normalization succeeds, every normalized value lies in the unit interval, at
least one height maps to exactly 0 and one to exactly 1, and the key list is
unchanged. -/
theorem claim_C8 (h : ℚ × ℚ) (t : List (ℚ × ℚ))
    (hlt : (minPairByVal h t).2 < (maxPairByVal h t).2) :
    ∃ m, normalizePass (h :: t) = Except.ok m ∧
      (∀ p ∈ m, 0 ≤ p.2 ∧ p.2 ≤ 1) ∧
      (∃ p ∈ m, p.2 = 0) ∧ (∃ p ∈ m, p.2 = 1) ∧
      m.map Prod.fst = (h :: t).map Prod.fst := by
  have hne : (maxPairByVal h t).2 - (minPairByVal h t).2 ≠ 0 := by linarith
  have hpos : 0 < (maxPairByVal h t).2 - (minPairByVal h t).2 := by linarith
  refine ⟨(h :: t).map (fun p => (p.1,
      (p.2 - (minPairByVal h t).2) / ((maxPairByVal h t).2 - (minPairByVal h t).2))),
    ?_, ?_, ?_, ?_, ?_⟩
  · simp only [normalizePass, if_neg hne]
  · intro p hp
    rcases List.mem_map.mp hp with ⟨q, hq, hpq⟩
    have h1 : (minPairByVal h t).2 ≤ q.2 := minPairByVal_le h t q hq
    have h2 : q.2 ≤ (maxPairByVal h t).2 := maxPairByVal_ge h t q hq
    rw [← hpq]
    constructor
    · exact div_nonneg (by linarith) (le_of_lt hpos)
    · rw [div_le_one hpos]
      linarith
  · refine ⟨((minPairByVal h t).1, (((minPairByVal h t).2 - (minPairByVal h t).2)
        / ((maxPairByVal h t).2 - (minPairByVal h t).2))), ?_, ?_⟩
    · exact List.mem_map.mpr ⟨minPairByVal h t, minPairByVal_mem h t, rfl⟩
    · simp
  · refine ⟨((maxPairByVal h t).1, (((maxPairByVal h t).2 - (minPairByVal h t).2)
        / ((maxPairByVal h t).2 - (minPairByVal h t).2))), ?_, ?_⟩
    · exact List.mem_map.mpr ⟨maxPairByVal h t, maxPairByVal_mem h t, rfl⟩
    · exact div_self hne
  · simp [List.map_map]

/-- Claim C8, witness: the map with values 5 and 7 normalizes to 0 and 1. -/
theorem claim_C8_witness :
    ∃ m, normalizePass [((0 : ℚ), (5 : ℚ)), (1, 7)] = Except.ok m ∧
      (∀ p ∈ m, 0 ≤ p.2 ∧ p.2 ≤ 1) ∧
      (∃ p ∈ m, p.2 = 0) ∧ (∃ p ∈ m, p.2 = 1) ∧
      m.map Prod.fst = [((0 : ℚ), (5 : ℚ)), (1, 7)].map Prod.fst :=
  claim_C8 (0, 5) [(1, 7)] (by with_unfolding_all decide)

/-- Claim C9, counterexample: the first pass starts with `absolute = False`
(source line 256), not true, so a motion line carrying a height records
nothing from the initial state: height extraction is not active until an
absolute-mode command is seen. -/
theorem claim_C9_cex :
    (scanInit pwId).absolute = false ∧
    ¬ (scanInit pwId).absolute = true ∧
    scanLine pwId (scanInit pwId) (str ("G1 Z0.3")) = scanInit pwId := by
  with_unfolding_all decide

/-- Claim C9, amended: the height-sampling pass starts with the absolute
flag false and `formerZ = thisZ = -1` (meaning unset); as long as no G90
command is seen, scanning any line leaves the initial state unchanged, so
height extraction is inactive until an absolute-mode command arrives. -/
theorem claim_C9 {α : Type} (pw : ℚ → α) (line : PyStr)
    (h : listContainsSub line (str ("G90")) = false) :
    (scanInit pw).absolute = false ∧ (scanInit pw).formerZ = -1 ∧
    (scanInit pw).thisZ = -1 ∧
    scanLine pw (scanInit pw) line = scanInit pw := by
  refine ⟨rfl, rfl, rfl, ?_⟩
  simp [scanLine, scanInit, h]

/-- Claim C9, witness: the amended initial-state behavior on the concrete
line `G1 Z5`. -/
theorem claim_C9_witness :
    (scanInit pwId).absolute = false ∧ (scanInit pwId).formerZ = -1 ∧
    (scanInit pwId).thisZ = -1 ∧
    scanLine pwId (scanInit pwId) (str ("G1 Z5")) = scanInit pwId :=
  claim_C9 pwId (str ("G1 Z5")) (by with_unfolding_all decide)

/-- Claim C10: the rewrite pass tracks no positioning mode.  For every line
passing the skip filters, the new `thisZ` is `getZ` of the line against the
running `formerZ` — an absolute reading regardless of any earlier G90/G91 —
and on a concrete stream that switches to relative mode before its Z move,
the move whose value is a discovered height still triggers a tagged
temperature injection. -/
theorem claim_C10 :
    (∀ (cfg : Pass2Config) (st : Pass2State) (line : PyStr),
      listContainsSub (line.map Char.toLower) (str ("; set extruder ")) = false →
      st.skiplines = 0 →
      listContainsSub (line.map Char.toLower) (str (";woodified")) = false →
      listContainsSub (line.map Char.toLower) (str (";woodgraph")) = false →
      st.thisZ ≠ cfg.lastPatchZ →
      listContainsSub (line.map Char.toLower) (str ("m104")) = false →
      cfg.maxTemp - cfg.minTemp ≠ 0 →
      ∃ st2, processLine cfg st line = Except.ok st2 ∧
        st2.thisZ = getZ line st.formerZ) ∧
    runC10.2.2 = none ∧
    countSub (joinAll runC10.1) (str ("; Wood Grain")) = 1 := by
  refine ⟨?_, by with_unfolding_all decide, by with_unfolding_all decide⟩
  intro cfg st line hex hsk hwf hwg hlp hm hdeg
  have hsk0 : ¬ st.skiplines > 0 := by omega
  simp only [processLine, hex, hsk0, hwf, hwg, hm, Bool.false_eq_true, if_false,
    if_neg hlp]
  by_cases hg : getZ line st.formerZ ≠ st.formerZ ∧
      dMem cfg.noises (getZ line st.formerZ) = true
  · rw [if_pos hg]
    simp only [handleTransition]
    by_cases hby : cfg.firstTemp ≠ 0 ∧ getZ line st.formerZ ≤ (0.5 : ℚ)
    · rw [if_pos hby]
      simp only [graphT, if_neg hdeg]
      exact ⟨_, rfl, rfl⟩
    · rw [if_neg hby]
      simp only [graphT, if_neg hdeg]
      exact ⟨_, rfl, rfl⟩
  · rw [if_neg hg]
    exact ⟨_, rfl, rfl⟩

/-- Claim C10, witness: the mode-free height reading at a concrete
configuration, state and line. -/
theorem claim_C10_witness :
    ∃ st2, processLine cfgX stB (str ("G1 Z9")) = Except.ok st2 ∧
      st2.thisZ = getZ (str ("G1 Z9")) stB.formerZ :=
  claim_C10.1 cfgX stB (str ("G1 Z9"))
    (by with_unfolding_all decide) (by with_unfolding_all decide)
    (by with_unfolding_all decide) (by with_unfolding_all decide)
    (by with_unfolding_all decide) (by with_unfolding_all decide)
    (by with_unfolding_all decide)

end WoodGrain
